import Mathlib

/-!
Verification of the data-quality monitoring script, a shallow
embedding of src/main.py.

The script loads column-level validation rules from a Snowflake
configuration table (with a hardcoded two-rule fallback on query
failure), translates each rule into a closure that registers a check
on a Great Expectations validator, and, per target table, builds a
suite, applies the rules, runs a checkpoint, validates, rebuilds the
documentation site, and prints pass/fail.

External effects (the Snowflake connection, the configuration query,
suite existence, validation outcomes) are modelled by explicit
environments; the Great Expectations context calls are modelled as an
event trace.
-/

namespace GEUtility

/-- JSON-like parameter values appearing in a rule's `params_json`
blob: strings, numbers, booleans, null, and arrays of strings
(column lists). -/
inductive JVal where
  | null : JVal
  | str (s : String) : JVal
  | num (n : Int) : JVal
  | bool (b : Bool) : JVal
  | arr (xs : List String) : JVal
  deriving DecidableEq, Repr

/-- A parameter blob: a Python dict of keyword parameters, modelled
as an association list in insertion order (keys unique, as in a
parsed JSON object). -/
abbrev Params : Type := List (String × JVal)

/-- First-match lookup in a dict, as Python `d[k]` / `d.get(k)`. -/
def dictGet : List (String × JVal) → String → Option JVal
  | [], _ => none
  | (k, v) :: rest, key => if k = key then some v else dictGet rest key

/-- Key membership test, as Python `key in d`. -/
def dictHasKey (d : List (String × JVal)) (key : String) : Bool :=
  d.any (fun p => p.1 = key)

/-- Python `{**d, key: v}`: the entries of `d` in order, with the
entry for `key` (unique, `d` being a dict) updated in place when
present and appended at the end otherwise. -/
def dictInsert : List (String × JVal) → String → JVal → List (String × JVal)
  | [], key, v => [(key, v)]
  | (k, w) :: rest, key, v =>
    if k = key then (key, v) :: rest else (k, w) :: dictInsert rest key v

/-- Python `{k: v for k, v in d.items() if k != key}`: drop the
entries for `key`, preserving order. -/
def dictRemove : List (String × JVal) → String → List (String × JVal)
  | [], _ => []
  | (k, w) :: rest, key =>
    if k = key then dictRemove rest key else (k, w) :: dictRemove rest key

/-- One invocation of a check method looked up by name on a
validator: `method` is the attribute name (the expectation type),
`positional` the positional arguments, `kwargs` the keyword
arguments in order. -/
structure CheckInvocation where
  method : String
  positional : List JVal
  kwargs : List (String × JVal)
  deriving DecidableEq, Repr

/-- A Great Expectations validator handle: it is bound to an
expectation suite, and registers the check-method invocations made
through it (the `log`, in call order). -/
structure Validator where
  suite : String
  log : List CheckInvocation
  deriving DecidableEq, Repr

/-- Registering one check-method call on a validator: appends the
invocation to the validator's log. Models
`getattr(validator, expectation_type)(...)` in
`build_expectation_function`. -/
def Validator.invoke (v : Validator) (method : String)
    (positional : List JVal) (kwargs : List (String × JVal)) : Validator :=
  { v with log := v.log ++ [⟨method, positional, kwargs⟩] }

/-- `full_params` of `build_expectation_function` (src/main.py line 17):
`{**params, "result_format": "COMPLETE"} if params else
{"result_format": "COMPLETE"}`. -/
def fullParams (params : Params) : List (String × JVal) :=
  if params ≠ ([] : Params) then
    dictInsert params "result_format" (JVal.str "COMPLETE")
  else
    [("result_format", JVal.str "COMPLETE")]

/-- `build_expectation_function` (src/main.py lines 13-30): turns a
rule triple (expectation type, column name, parameter blob) into a
closure over a validator. The closure looks up the check method named
by the expectation type and calls it once:
* when `full_params` has a `column_list` key, with keyword arguments
  `column_list=...` plus the remaining parameters;
* otherwise, when the column name is truthy (non-empty), with the
  column name as the single positional argument plus `full_params`
  as keyword arguments;
* otherwise with `full_params` as keyword arguments only. -/
def build_expectation_function (expectation_type column_name : String)
    (params : Params) : Validator → Validator :=
  fun validator =>
    let full_params := fullParams params
    if dictHasKey full_params "column_list" then
      validator.invoke expectation_type []
        (("column_list", (dictGet full_params "column_list").getD JVal.null)
          :: dictRemove full_params "column_list")
    else if column_name ≠ "" then
      validator.invoke expectation_type [JVal.str column_name] full_params
    else
      validator.invoke expectation_type [] full_params

/-- A row of the configuration data frame `df` as consumed by the
grouping loop of `load_config_from_snowflake` (src/main.py lines
67-75): target table, column name, expectation type, and the
`params_json` field. A JSON text is modelled already parsed:
`none` stands for a falsy field (empty string or NULL), `some d` for
a truthy JSON text whose parse is the dict `d` (so the text `"{}"` is
`some []`). -/
structure Row where
  table_name : String
  column_name : String
  expectation_type : String
  params_json : Option Params
  deriving DecidableEq

/-- `json.loads(row["params_json"]) if row["params_json"] else {}`
(src/main.py line 71). -/
def paramsOf (r : Row) : Params :=
  r.params_json.getD []

/-- A row of the `TABLE_VALIDATION_CONFIG` warehouse table: a
configuration row together with its `is_enabled` flag. -/
structure ConfigRow extends Row where
  is_enabled : Bool

/-- The configuration query (src/main.py line 43):
`SELECT table_name, column_name, expectation_type, params_json FROM
TABLE_VALIDATION_CONFIG WHERE is_enabled = TRUE`, i.e. the enabled
rows of the warehouse table, projected to the four selected columns,
in the order the warehouse returns them. -/
def runConfigQuery (tableRows : List ConfigRow) : List Row :=
  (tableRows.filter (fun r => r.is_enabled)).map ConfigRow.toRow

/-- The hardcoded fallback data frame substituted when the
configuration query raises (src/main.py lines 48-63). -/
def fallback_df : List Row :=
  [ { table_name := "TEST_DATES"
    , column_name := "ID"
    , expectation_type := "expect_column_values_to_not_be_null"
    , params_json := some [] }
  , { table_name := "TEST_DATES"
    , column_name := "EVENT_DATE"
    , expectation_type := "expect_column_values_to_be_between"
    , params_json := some
        [ ("min_value", JVal.str "2025-01-01")
        , ("max_value", JVal.str "2025-12-02") ] } ]

/-- External I/O of `load_config_from_snowflake`: the outcome of
`snowflake.connector.connect(...)` (src/main.py lines 33-40) and, when
the connection succeeds, the outcome of executing the configuration
query against the warehouse (`pd.read_sql`, line 44). An `Except.error`
models a raised exception. -/
structure SnowflakeEnv where
  connect : Except String Unit
  queryResult : Except String (List ConfigRow)

/-- Grouped configuration: `defaultdict(list)` keyed by table name,
modelled as an association list in key insertion order of translated
rule closures. -/
abbrev Grouped : Type := List (String × List (Validator → Validator))

/-- Appending to a `defaultdict(list)` entry:
`grouped[table].append(f)` (src/main.py line 72). The key keeps its
position when present and is added at the end otherwise. -/
def dappend (g : List (String × List (Validator → Validator)))
    (key : String) (f : Validator → Validator) :
    List (String × List (Validator → Validator)) :=
  match g with
  | [] => [(key, [f])]
  | (k, fs) :: rest =>
    if k = key then (k, fs ++ [f]) :: rest else (k, fs) :: dappend rest key f

/-- Lookup in the grouped configuration with the `defaultdict`
default: the list under `key`, or `[]` when absent. -/
def lookupRules (g : List (String × List (Validator → Validator)))
    (key : String) : List (Validator → Validator) :=
  match g with
  | [] => []
  | (k, fs) :: rest => if k = key then fs else lookupRules rest key

/-- The grouping loop of `load_config_from_snowflake` (src/main.py
lines 67-74): for each data frame row in order, append the translated
closure `build_expectation_function(expectation_type, column,
params)` under the row's table name. -/
def groupRules (df : List Row) : Grouped :=
  df.foldl
    (fun grouped row =>
      dappend grouped row.table_name
        (build_expectation_function row.expectation_type row.column_name
          (paramsOf row)))
    []

/-- The data frame held in `df` after the try/except of
`load_config_from_snowflake` (src/main.py lines 42-63): the query
result when the query succeeds, the hardcoded fallback when it
raises. -/
def dfOf (queryResult : Except String (List ConfigRow)) : List Row :=
  match queryResult with
  | Except.ok tableRows => runConfigQuery tableRows
  | Except.error _ => fallback_df

/-- `load_config_from_snowflake` (src/main.py lines 32-75). The
`connect` call sits before the try/except, so a connection failure
propagates; a query failure is caught and replaced by the fallback
data frame; the resulting rows are grouped by table name. -/
def load_config_from_snowflake (sf : SnowflakeEnv) : Except String Grouped :=
  match sf.connect with
  | Except.error e => Except.error e
  | Except.ok _ => Except.ok (groupRules (dfOf sf.queryResult))

/-- Python `str.lower()`, modelled as a per-character lowercase map
over the string's characters. -/
def strLower (s : String) : String :=
  String.mk (s.data.map Char.toLower)

/-- Suite name derived for a table (src/main.py line 100):
`f"{table_name.lower()}_suite"`. -/
def suiteNameOf (table_name : String) : String :=
  strLower table_name ++ "_suite"

/-- Asset name derived for a table (src/main.py line 101):
`f"{schema_name.lower()}_{table_name.lower()}"`. -/
def assetNameOf (schema_name table_name : String) : String :=
  strLower schema_name ++ "_" ++ strLower table_name

/-- The environment variables read at the top of
`monitor_all_tables` (src/main.py lines 85-90). -/
structure EnvVars where
  user : String
  password : String
  account : String
  database : String
  schema_name : String
  warehouse : String

/-- The Fluent API connection string (src/main.py line 91). -/
def connectionString (ev : EnvVars) : String :=
  "snowflake://" ++ ev.user ++ ":" ++ ev.password ++ "@" ++ ev.account
    ++ "/" ++ ev.database ++ "/" ++ ev.schema_name ++ "?warehouse="
    ++ ev.warehouse

/-- One observable call of `monitor_all_tables` into the Great
Expectations context (or to stdout), in program order. `getSuiteOk`
and `getSuiteRaise` are the two outcomes of
`context.get_expectation_suite`; `check` is one check method
registered through a validator bound to the given suite;
`printResult` is the final `print`, rendered as
`"Validation passed for T."` or `"Validation failed for T."`. -/
inductive Event where
  | addOrUpdateSnowflake (name connection_string : String) : Event
  | getDatasource (name : String) : Event
  | addTableAsset (asset_name table_name schema_name : String) : Event
  | getSuiteOk (suite_name : String) : Event
  | getSuiteRaise (suite_name : String) : Event
  | addSuite (suite_name : String) : Event
  | getValidator (datasource_name asset_name suite_name : String) : Event
  | check (suite_name : String) (inv : CheckInvocation) : Event
  | saveSuite (suite_name : String) (discard_failed : Bool) : Event
  | addOrUpdateCheckpoint (name : String) : Event
  | runCheckpoint (name : String) : Event
  | validate (suite_name : String) : Event
  | buildDataDocs (site_names : List String) : Event
  | openDataDocs : Event
  | printResult (table_name : String) (success : Bool) : Event
  deriving DecidableEq, Repr

/-- External behaviour of the Great Expectations context during a
run: whether `context.get_expectation_suite` succeeds for a given
suite name, and the `success` flag of the validation result computed
by `validator.validate()` for a validator bound to a given suite. -/
structure GEEnv where
  suiteExists : String → Bool
  validateSuccess : String → Bool

/-- The body of the per-table loop of `monitor_all_tables`
(src/main.py lines 99-139), as the event trace it emits for one entry
`(table_name, expectation_functions)` of the grouped configuration:
add the table asset; try to fetch the suite, creating it when the
fetch raises; fetch a validator bound to the suite; apply every
translated rule closure to the validator (each registered check
appears as a `check` event on the validator's suite); save the suite;
add and run a checkpoint; validate; rebuild and open the data docs;
print pass/fail from the validation result's success flag. -/
def processTable (env : GEEnv) (schema_name datasource_name : String)
    (entry : String × List (Validator → Validator)) : List Event :=
  let table_name := entry.1
  let expectation_functions := entry.2
  let suite_name := suiteNameOf table_name
  let asset_name := assetNameOf schema_name table_name
  let ensureSuite :=
    if env.suiteExists suite_name then
      [Event.getSuiteOk suite_name]
    else
      [Event.getSuiteRaise suite_name, Event.addSuite suite_name]
  let validator :=
    expectation_functions.foldl (fun v f => f v)
      { suite := suite_name, log := [] }
  let success := env.validateSuccess suite_name
  [Event.addTableAsset asset_name table_name schema_name]
    ++ ensureSuite
    ++ [Event.getValidator datasource_name asset_name suite_name]
    ++ validator.log.map (Event.check suite_name)
    ++ [ Event.saveSuite suite_name false
       , Event.addOrUpdateCheckpoint (suite_name ++ "_checkpoint")
       , Event.runCheckpoint (suite_name ++ "_checkpoint")
       , Event.validate suite_name
       , Event.buildDataDocs ["local_site"]
       , Event.openDataDocs
       , Event.printResult table_name success ]

/-- The datasource setup of `monitor_all_tables` (src/main.py lines
93-97): register the Snowflake datasource and fetch it back. -/
def setupEvents (ev : EnvVars) : List Event :=
  [ Event.addOrUpdateSnowflake "snowflake_ds" (connectionString ev)
  , Event.getDatasource "snowflake_ds" ]

/-- The event trace of `monitor_all_tables` once the configuration
has been loaded: the datasource setup followed by one per-table
segment for each entry of the grouped configuration, in order. -/
def monitorTrace (cfg : Grouped) (env : GEEnv) (ev : EnvVars) :
    List Event :=
  setupEvents ev ++ cfg.flatMap (processTable env ev.schema_name "snowflake_ds")

/-- `monitor_all_tables` (src/main.py lines 78-139): load the
configuration (propagating a connection failure), then emit the
monitoring trace over the grouped configuration. -/
def monitor_all_tables (sf : SnowflakeEnv) (env : GEEnv) (ev : EnvVars) :
    Except String (List Event) :=
  match load_config_from_snowflake sf with
  | Except.error e => Except.error e
  | Except.ok expectations_by_table =>
    Except.ok (monitorTrace expectations_by_table env ev)

/-! ### Dictionary lemmas -/

theorem dictGet_dictInsert_self (d : List (String × JVal)) (key : String)
    (v : JVal) : dictGet (dictInsert d key v) key = some v := by
  induction d with
  | nil => simp [dictInsert, dictGet]
  | cons p rest ih =>
    obtain ⟨k1, v1⟩ := p
    by_cases hp : k1 = key
    · simp [dictInsert, dictGet, hp]
    · simp only [dictInsert, if_neg hp, dictGet]
      exact ih

theorem dictGet_dictInsert_ne (d : List (String × JVal)) (key k : String)
    (v : JVal) (hne : key ≠ k) :
    dictGet (dictInsert d k v) key = dictGet d key := by
  induction d with
  | nil =>
    have hk : ¬ k = key := fun hk => hne hk.symm
    simp [dictInsert, dictGet, hk]
  | cons p rest ih =>
    obtain ⟨k1, v1⟩ := p
    by_cases hp : k1 = k
    · have hk1 : ¬ k1 = key := fun hk => hne ((hp.symm.trans hk).symm)
      simp only [dictInsert, if_pos hp, dictGet]
      rw [if_neg (fun hk : k = key => hne hk.symm), if_neg hk1]
    · simp only [dictInsert, if_neg hp, dictGet]
      by_cases hpk : k1 = key
      · rw [if_pos hpk, if_pos hpk]
      · rw [if_neg hpk, if_neg hpk]
        exact ih

theorem dictGet_dictRemove_ne (d : List (String × JVal)) (key k : String)
    (hne : key ≠ k) :
    dictGet (dictRemove d k) key = dictGet d key := by
  induction d with
  | nil => rfl
  | cons p rest ih =>
    obtain ⟨k1, v1⟩ := p
    by_cases hp : k1 = k
    · have hk1 : ¬ k1 = key := fun hk => hne ((hp.symm.trans hk).symm)
      simp only [dictRemove, if_pos hp, dictGet]
      rw [ih, if_neg hk1]
    · simp only [dictRemove, if_neg hp, dictGet]
      by_cases hpk : k1 = key
      · rw [if_pos hpk, if_pos hpk]
      · rw [if_neg hpk, if_neg hpk]
        exact ih

theorem dictHasKey_dictInsert_of (d : List (String × JVal))
    (key k : String) (v : JVal) (h : dictHasKey d key = true) :
    dictHasKey (dictInsert d k v) key = true := by
  induction d with
  | nil => simp [dictHasKey] at h
  | cons p rest ih =>
    obtain ⟨k1, v1⟩ := p
    simp only [dictHasKey, List.any_cons, Bool.or_eq_true,
      decide_eq_true_eq] at h
    by_cases hp : k1 = k
    · simp only [dictInsert, if_pos hp, dictHasKey, List.any_cons,
        Bool.or_eq_true, decide_eq_true_eq]
      rcases h with h1 | h2
      · exact Or.inl (hp.symm.trans h1)
      · exact Or.inr h2
    · simp only [dictInsert, if_neg hp, dictHasKey, List.any_cons,
        Bool.or_eq_true, decide_eq_true_eq]
      rcases h with h1 | h2
      · exact Or.inl h1
      · refine Or.inr ?_
        have hrest : dictHasKey (dictInsert rest k v) key = true :=
          ih (by simpa [dictHasKey] using h2)
        simpa [dictHasKey] using hrest

/-- `result_format` in `full_params` is always `"COMPLETE"`, whatever
the configured blob held. -/
theorem fullParams_result_format (params : Params) :
    dictGet (fullParams params) "result_format"
      = some (JVal.str "COMPLETE") := by
  unfold fullParams
  by_cases h : params ≠ ([] : Params)
  · rw [if_pos h]
    exact dictGet_dictInsert_self params "result_format" (JVal.str "COMPLETE")
  · rw [if_neg h]
    rfl

/-- Claim C1. For every rule triple, the translated closure, applied
to a validator, registers exactly one invocation of the check method
named by the expectation type, and its arguments are shaped in one of
three ways: keyword arguments led by `column_list` when `full_params`
carries a column list; a single positional column name plus keyword
parameters when the column name is non-empty; keyword parameters only
otherwise. -/
theorem build_expectation_function_invokes_once
    (expectation_type column_name : String) (params : Params)
    (v : Validator) :
    ∃ inv : CheckInvocation,
      (build_expectation_function expectation_type column_name params v).log
          = v.log ++ [inv]
        ∧ inv.method = expectation_type
        ∧ ((dictHasKey (fullParams params) "column_list" = true
              ∧ inv.positional = []
              ∧ inv.kwargs =
                  ("column_list",
                      (dictGet (fullParams params) "column_list").getD JVal.null)
                    :: dictRemove (fullParams params) "column_list")
          ∨ (dictHasKey (fullParams params) "column_list" = false
              ∧ column_name ≠ ""
              ∧ inv.positional = [JVal.str column_name]
              ∧ inv.kwargs = fullParams params)
          ∨ (dictHasKey (fullParams params) "column_list" = false
              ∧ column_name = ""
              ∧ inv.positional = []
              ∧ inv.kwargs = fullParams params)) := by
  by_cases hcl : dictHasKey (fullParams params) "column_list" = true
  · refine ⟨⟨expectation_type, [],
      ("column_list",
          (dictGet (fullParams params) "column_list").getD JVal.null)
        :: dictRemove (fullParams params) "column_list"⟩,
      ?_, rfl, Or.inl ⟨hcl, rfl, rfl⟩⟩
    simp [build_expectation_function, Validator.invoke, hcl]
  · by_cases hcol : column_name = ""
    · refine ⟨⟨expectation_type, [], fullParams params⟩, ?_, rfl,
        Or.inr (Or.inr ⟨by simpa using hcl, hcol, rfl, rfl⟩)⟩
      simp [build_expectation_function, Validator.invoke, hcl, hcol]
    · refine ⟨⟨expectation_type, [JVal.str column_name], fullParams params⟩,
        ?_, rfl, Or.inr (Or.inl ⟨by simpa using hcl, hcol, rfl, rfl⟩)⟩
      simp [build_expectation_function, Validator.invoke, hcl, hcol]

/-- Claim C8. Every registered invocation carries
`result_format = "COMPLETE"` among its keyword arguments, for every
parameter blob — in particular for the empty blob, and overriding any
`result_format` the configuration supplied. -/
theorem build_expectation_function_result_format
    (expectation_type column_name : String) (params : Params)
    (v : Validator) :
    ∃ inv : CheckInvocation,
      (build_expectation_function expectation_type column_name params v).log
          = v.log ++ [inv]
        ∧ dictGet inv.kwargs "result_format" = some (JVal.str "COMPLETE") := by
  have hfull := fullParams_result_format params
  by_cases hcl : dictHasKey (fullParams params) "column_list" = true
  · refine ⟨⟨expectation_type, [],
      ("column_list",
          (dictGet (fullParams params) "column_list").getD JVal.null)
        :: dictRemove (fullParams params) "column_list"⟩, ?_, ?_⟩
    · simp [build_expectation_function, Validator.invoke, hcl]
    · show dictGet _ "result_format" = _
      simp only [dictGet]
      rw [if_neg (by decide)]
      rw [dictGet_dictRemove_ne _ _ _ (by decide)]
      exact hfull
  · by_cases hcol : column_name = ""
    · refine ⟨⟨expectation_type, [], fullParams params⟩, ?_, hfull⟩
      simp [build_expectation_function, Validator.invoke, hcl, hcol]
    · refine ⟨⟨expectation_type, [JVal.str column_name], fullParams params⟩,
        ?_, hfull⟩
      simp [build_expectation_function, Validator.invoke, hcl, hcol]

/-- Claim C9. When the parameter blob has a `column_list` key, the
closure takes the column-list branch: the registered invocation has
no positional argument, its keyword arguments start with that column
list, and the configured column name is ignored entirely — the
closure's behaviour does not depend on it. -/
theorem build_expectation_function_column_list_precedence
    (expectation_type column_name other_name : String) (params : Params)
    (v : Validator) (h : dictHasKey params "column_list" = true) :
    build_expectation_function expectation_type column_name params v
        = build_expectation_function expectation_type other_name params v
      ∧ ∃ inv : CheckInvocation,
          (build_expectation_function expectation_type column_name params v).log
              = v.log ++ [inv]
            ∧ inv.positional = []
            ∧ inv.kwargs.head? =
                some ("column_list", (dictGet params "column_list").getD JVal.null) := by
  have hne : params ≠ ([] : Params) := by
    intro hnil
    rw [hnil] at h
    simp [dictHasKey] at h
  have hfullkey : dictHasKey (fullParams params) "column_list" = true := by
    unfold fullParams
    rw [if_pos hne]
    exact dictHasKey_dictInsert_of params "column_list" "result_format"
      (JVal.str "COMPLETE") h
  have hget : dictGet (fullParams params) "column_list"
      = dictGet params "column_list" := by
    unfold fullParams
    rw [if_pos hne]
    exact dictGet_dictInsert_ne params "column_list" "result_format"
      (JVal.str "COMPLETE") (by decide)
  constructor
  · simp [build_expectation_function, hfullkey]
  · refine ⟨⟨expectation_type, [],
      ("column_list",
          (dictGet (fullParams params) "column_list").getD JVal.null)
        :: dictRemove (fullParams params) "column_list"⟩, ?_, rfl, ?_⟩
    · simp [build_expectation_function, Validator.invoke, hfullkey]
    · simp [hget]

/-- Witness for claim C9 at a concrete rule: a blob carrying
`column_list = ["A", "B"]` with a non-empty configured column name. -/
theorem build_expectation_function_column_list_precedence_witness :
    build_expectation_function "expect_table_columns_to_match_ordered_list"
        "SOME_COLUMN" [("column_list", JVal.arr ["A", "B"])]
        { suite := "s", log := [] }
      = build_expectation_function "expect_table_columns_to_match_ordered_list"
          "" [("column_list", JVal.arr ["A", "B"])]
          { suite := "s", log := [] }
    ∧ ∃ inv : CheckInvocation,
        (build_expectation_function "expect_table_columns_to_match_ordered_list"
            "SOME_COLUMN" [("column_list", JVal.arr ["A", "B"])]
            { suite := "s", log := [] }).log
            = ({ suite := "s", log := [] } : Validator).log ++ [inv]
          ∧ inv.positional = []
          ∧ inv.kwargs.head? =
              some ("column_list",
                (dictGet [("column_list", JVal.arr ["A", "B"])]
                    "column_list").getD JVal.null) :=
  build_expectation_function_column_list_precedence
    "expect_table_columns_to_match_ordered_list" "SOME_COLUMN" ""
    [("column_list", JVal.arr ["A", "B"])] { suite := "s", log := [] }
    (by decide)

/-! ### Grouping lemmas -/

theorem lookupRules_dappend_self
    (g : List (String × List (Validator → Validator))) (k : String)
    (f : Validator → Validator) :
    lookupRules (dappend g k f) k = lookupRules g k ++ [f] := by
  induction g with
  | nil => simp [dappend, lookupRules]
  | cons p rest ih =>
    obtain ⟨k1, fs⟩ := p
    by_cases hp : k1 = k
    · simp [dappend, lookupRules, hp]
    · simp only [dappend, if_neg hp, lookupRules]
      exact ih

theorem lookupRules_dappend_ne
    (g : List (String × List (Validator → Validator))) (k key : String)
    (f : Validator → Validator) (h : key ≠ k) :
    lookupRules (dappend g k f) key = lookupRules g key := by
  induction g with
  | nil =>
    have hk : ¬ k = key := fun hk => h hk.symm
    simp [dappend, lookupRules, hk]
  | cons p rest ih =>
    obtain ⟨k1, fs⟩ := p
    by_cases hp : k1 = k
    · have hk1 : ¬ k1 = key := fun hk => h ((hp.symm.trans hk).symm)
      have hk : ¬ k = key := fun hk => h hk.symm
      simp only [dappend, if_pos hp, lookupRules]
      rw [if_neg hk1, if_neg hk1]
    · simp only [dappend, if_neg hp, lookupRules]
      by_cases hpk : k1 = key
      · rw [if_pos hpk, if_pos hpk]
      · rw [if_neg hpk, if_neg hpk]
        exact ih

/-- Unrolling the grouping fold: looking up a table in the grouped
configuration built over an accumulator yields the accumulator's
entry followed by the translated closures of exactly that table's
rows, in row order. -/
theorem lookupRules_foldl_dappend (df : List Row)
    (g : List (String × List (Validator → Validator))) (t : String) :
    lookupRules
        (df.foldl
          (fun grouped row =>
            dappend grouped row.table_name
              (build_expectation_function row.expectation_type
                row.column_name (paramsOf row)))
          g) t
      = lookupRules g t
          ++ (df.filter (fun r => r.table_name = t)).map
              (fun r => build_expectation_function r.expectation_type
                r.column_name (paramsOf r)) := by
  induction df generalizing g with
  | nil => simp
  | cons r rest ih =>
    simp only [List.foldl_cons]
    rw [ih]
    by_cases hr : r.table_name = t
    · subst hr
      rw [lookupRules_dappend_self]
      rw [List.filter_cons_of_pos (by simp)]
      simp [List.append_assoc]
    · rw [lookupRules_dappend_ne _ _ _ _ (fun h => hr h.symm)]
      rw [List.filter_cons_of_neg (by simpa using hr)]

/-- Looking up a table in the grouped configuration yields the
translated closures of exactly that table's data frame rows, in row
order. -/
theorem lookupRules_groupRules (df : List Row) (t : String) :
    lookupRules (groupRules df) t
      = (df.filter (fun r => r.table_name = t)).map
          (fun r => build_expectation_function r.expectation_type
            r.column_name (paramsOf r)) := by
  unfold groupRules
  rw [lookupRules_foldl_dappend]
  rfl

/-- Claim C10. The catch-and-fallback covers only the configuration
query: when establishing the warehouse connection raises,
`load_config_from_snowflake` propagates the exception and no fallback
is substituted. -/
theorem load_config_propagates_connect_failure (e : String)
    (q : Except String (List ConfigRow)) :
    load_config_from_snowflake { connect := Except.error e, queryResult := q }
      = Except.error e := rfl

/-- Claim C2. When the configuration query fails, the loader
substitutes the hardcoded fallback: exactly two rules, a not-null
check on column `ID` and a between check on column `EVENT_DATE`, both
under table `TEST_DATES`, and the load succeeds with that fallback
instead of propagating the error. -/
theorem load_config_query_failure_uses_fallback (e : String) :
    load_config_from_snowflake
        { connect := Except.ok (), queryResult := Except.error e }
      = Except.ok
          [("TEST_DATES",
            [ build_expectation_function "expect_column_values_to_not_be_null"
                "ID" []
            , build_expectation_function "expect_column_values_to_be_between"
                "EVENT_DATE"
                [ ("min_value", JVal.str "2025-01-01")
                , ("max_value", JVal.str "2025-12-02") ] ])] := by
  show Except.ok (groupRules fallback_df) = _
  rfl

/-- Claim C3. On a successful configuration query, the loader keeps
exactly the rows whose enabled flag is true, and the returned mapping
associates each table name with the translated closures of precisely
its own rows, in the order the rows were returned; looking up any
other table yields none of them. -/
theorem load_config_success_groups_by_table
    (tableRows : List ConfigRow) (t : String) :
    ∃ cfg : Grouped,
      load_config_from_snowflake
          { connect := Except.ok (), queryResult := Except.ok tableRows }
        = Except.ok cfg
      ∧ lookupRules cfg t
          = (((tableRows.filter (fun r => r.is_enabled)).map
                ConfigRow.toRow).filter (fun r => r.table_name = t)).map
              (fun r => build_expectation_function r.expectation_type
                r.column_name (paramsOf r)) := by
  refine ⟨groupRules (runConfigQuery tableRows), rfl, ?_⟩
  rw [lookupRules_groupRules]
  rfl

/-! ### Orchestrator claims -/

/-- Claim C4. Whenever the connection succeeds (so the run reaches
the loop), the run's trace is the datasource setup followed, for each
table of the loaded configuration in order, by exactly: add the table
asset and ensure the named suite exists (fetching it, and creating it
when the fetch raises), fetch a validator, apply every translated
rule to it, save the suite, build and run a checkpoint, compute the
final validation result, rebuild and open the documentation site, and
print pass or fail according to that result's success flag. -/
theorem monitor_all_tables_per_table_steps
    (q : Except String (List ConfigRow)) (env : GEEnv) (ev : EnvVars) :
    monitor_all_tables { connect := Except.ok (), queryResult := q } env ev
      = Except.ok
          (setupEvents ev
            ++ (groupRules (dfOf q)).flatMap
                (fun entry =>
                  [Event.addTableAsset (assetNameOf ev.schema_name entry.1)
                      entry.1 ev.schema_name]
                    ++ (if env.suiteExists (suiteNameOf entry.1) then
                          [Event.getSuiteOk (suiteNameOf entry.1)]
                        else
                          [ Event.getSuiteRaise (suiteNameOf entry.1)
                          , Event.addSuite (suiteNameOf entry.1) ])
                    ++ [Event.getValidator "snowflake_ds"
                          (assetNameOf ev.schema_name entry.1)
                          (suiteNameOf entry.1)]
                    ++ (entry.2.foldl (fun (v : Validator) f => f v)
                          ({ suite := suiteNameOf entry.1, log := [] } :
                            Validator)).log.map
                        (Event.check (suiteNameOf entry.1))
                    ++ [ Event.saveSuite (suiteNameOf entry.1) false
                       , Event.addOrUpdateCheckpoint
                           (suiteNameOf entry.1 ++ "_checkpoint")
                       , Event.runCheckpoint
                           (suiteNameOf entry.1 ++ "_checkpoint")
                       , Event.validate (suiteNameOf entry.1)
                       , Event.buildDataDocs ["local_site"]
                       , Event.openDataDocs
                       , Event.printResult entry.1
                           (env.validateSuccess (suiteNameOf entry.1)) ])) :=
  rfl

/-- Claim C5. When a table's suite fetch raises (the suite does not
exist), the orchestrator creates the suite under that table's suite
name and the table is still fully processed: the run does not fail,
and the table's pass/fail line is still printed. -/
theorem monitor_creates_missing_suite (cfg : Grouped) (env : GEEnv)
    (ev : EnvVars) (t : String) (funcs : List (Validator → Validator))
    (hmem : (t, funcs) ∈ cfg)
    (hmissing : env.suiteExists (suiteNameOf t) = false) :
    Event.addSuite (suiteNameOf t) ∈ monitorTrace cfg env ev
    ∧ Event.printResult t (env.validateSuccess (suiteNameOf t))
        ∈ monitorTrace cfg env ev := by
  constructor
  · refine List.mem_append.2 (Or.inr ?_)
    refine List.mem_flatMap.2 ⟨(t, funcs), hmem, ?_⟩
    simp [processTable, hmissing]
  · refine List.mem_append.2 (Or.inr ?_)
    refine List.mem_flatMap.2 ⟨(t, funcs), hmem, ?_⟩
    simp [processTable]

/-- Witness for claim C5: a one-table configuration whose suite is
missing in the context. -/
theorem monitor_creates_missing_suite_witness :
    Event.addSuite (suiteNameOf "TEST_DATES")
        ∈ monitorTrace [("TEST_DATES", [])]
            { suiteExists := fun _ => false, validateSuccess := fun _ => true }
            { user := "u", password := "p", account := "a", database := "d"
            , schema_name := "PUBLIC", warehouse := "w" }
    ∧ Event.printResult "TEST_DATES"
          (({ suiteExists := fun _ => false
            , validateSuccess := fun _ => true } : GEEnv).validateSuccess
            (suiteNameOf "TEST_DATES"))
        ∈ monitorTrace [("TEST_DATES", [])]
            { suiteExists := fun _ => false, validateSuccess := fun _ => true }
            { user := "u", password := "p", account := "a", database := "d"
            , schema_name := "PUBLIC", warehouse := "w" } :=
  monitor_creates_missing_suite [("TEST_DATES", [])]
    { suiteExists := fun _ => false, validateSuccess := fun _ => true }
    { user := "u", password := "p", account := "a", database := "d"
    , schema_name := "PUBLIC", warehouse := "w" }
    "TEST_DATES" [] (List.mem_singleton.2 rfl) rfl

/-! ### Counting lemmas for the single-pass claim -/

/-- Recognizes the `validator.validate()` call of a per-table run. -/
def isValidateEvent : Event → Bool
  | Event.validate _ => true
  | _ => false

/-- Recognizes one check registration through a validator. -/
def isCheckEvent : Event → Bool
  | Event.check _ _ => true
  | _ => false

/-- Recognizes the pass/fail line printed for table `t`. -/
def isPrintForTable (t : String) : Event → Bool
  | Event.printResult table_name _ => table_name = t
  | _ => false

theorem countP_flatMap {α β : Type} (l : List α) (f : α → List β)
    (p : β → Bool) :
    (l.flatMap f).countP p = (l.map (fun a => (f a).countP p)).sum := by
  induction l with
  | nil => rfl
  | cons a rest ih => simp [List.flatMap_cons, List.countP_append, ih]

theorem sum_map_one {α : Type} (l : List α) :
    (l.map (fun _ => (1 : Nat))).sum = l.length := by
  induction l with
  | nil => rfl
  | cons a rest ih =>
    simp [ih]
    omega

/-- A closure that registers exactly one check on any validator. -/
def appliesOneCheck (f : Validator → Validator) : Prop :=
  ∀ v : Validator, (f v).log.length = v.log.length + 1

theorem build_expectation_function_appliesOneCheck
    (expectation_type column_name : String) (params : Params) :
    appliesOneCheck
      (build_expectation_function expectation_type column_name params) := by
  intro v
  by_cases hcl : dictHasKey (fullParams params) "column_list" = true
  · simp [build_expectation_function, Validator.invoke, hcl]
  · by_cases hcol : column_name = "" <;>
      simp [build_expectation_function, Validator.invoke, hcl, hcol]

theorem dappend_appliesOneCheck (g : Grouped) (k : String)
    (f : Validator → Validator)
    (hg : ∀ entry ∈ g, ∀ f2 ∈ entry.2, appliesOneCheck f2)
    (hf : appliesOneCheck f) :
    ∀ entry ∈ dappend g k f, ∀ f2 ∈ entry.2, appliesOneCheck f2 := by
  induction g with
  | nil =>
    intro entry hmem f2 hf2
    simp only [dappend, List.mem_singleton] at hmem
    subst hmem
    simp only [List.mem_singleton] at hf2
    subst hf2
    exact hf
  | cons p rest ih =>
    obtain ⟨k1, fs⟩ := p
    intro entry hmem f2 hf2
    by_cases hp : k1 = k
    · simp only [dappend, if_pos hp, List.mem_cons] at hmem
      rcases hmem with hmem | hmem
      · subst hmem
        simp only [List.mem_append, List.mem_singleton] at hf2
        rcases hf2 with hf2 | hf2
        · exact hg (k1, fs) (List.mem_cons_self _ _) f2 hf2
        · subst hf2
          exact hf
      · exact hg entry (List.mem_cons_of_mem _ hmem) f2 hf2
    · simp only [dappend, if_neg hp, List.mem_cons] at hmem
      rcases hmem with hmem | hmem
      · subst hmem
        exact hg (k1, fs) (List.mem_cons_self _ _) f2 hf2
      · exact ih (fun e he f3 hf3 =>
          hg e (List.mem_cons_of_mem _ he) f3 hf3) entry hmem f2 hf2

theorem foldl_dappend_appliesOneCheck (df : List Row) (g : Grouped)
    (hg : ∀ entry ∈ g, ∀ f2 ∈ entry.2, appliesOneCheck f2) :
    ∀ entry ∈ df.foldl
        (fun grouped row =>
          dappend grouped row.table_name
            (build_expectation_function row.expectation_type
              row.column_name (paramsOf row)))
        g,
      ∀ f2 ∈ entry.2, appliesOneCheck f2 := by
  induction df generalizing g with
  | nil => exact hg
  | cons r rest ih =>
    simp only [List.foldl_cons]
    exact ih _
      (dappend_appliesOneCheck g r.table_name _ hg
        (build_expectation_function_appliesOneCheck _ _ _))

theorem groupRules_appliesOneCheck (df : List Row) :
    ∀ entry ∈ groupRules df, ∀ f2 ∈ entry.2, appliesOneCheck f2 :=
  foldl_dappend_appliesOneCheck df [] (by intro entry h; simp at h)

theorem foldl_apply_log_length (funcs : List (Validator → Validator))
    (h : ∀ f ∈ funcs, appliesOneCheck f) (v : Validator) :
    (funcs.foldl (fun (v2 : Validator) f => f v2) v).log.length
      = v.log.length + funcs.length := by
  induction funcs generalizing v with
  | nil => rfl
  | cons f rest ih =>
    simp only [List.foldl_cons, List.length_cons]
    rw [ih (fun f2 hf2 => h f2 (List.mem_cons_of_mem _ hf2)) (f v)]
    rw [h f (List.mem_cons_self _ _) v]
    omega

theorem countP_validate_processTable (env : GEEnv) (s ds : String)
    (entry : String × List (Validator → Validator)) :
    (processTable env s ds entry).countP isValidateEvent = 1 := by
  by_cases hex : env.suiteExists (suiteNameOf entry.1) <;>
    simp [processTable, hex, List.countP_append, List.countP_cons,
      List.countP_map, Function.comp, isValidateEvent, List.countP_eq_zero]

theorem countP_check_processTable (env : GEEnv) (s ds : String)
    (entry : String × List (Validator → Validator))
    (h : ∀ f ∈ entry.2, appliesOneCheck f) :
    (processTable env s ds entry).countP isCheckEvent = entry.2.length := by
  have hcomp : isCheckEvent ∘ Event.check (suiteNameOf entry.1)
      = fun _ => true := by
    funext inv
    rfl
  have hlen := foldl_apply_log_length entry.2 h
    { suite := suiteNameOf entry.1, log := [] }
  by_cases hex : env.suiteExists (suiteNameOf entry.1) <;>
    simp [processTable, hex, List.countP_append, List.countP_cons,
      List.countP_map, hcomp, List.countP_true, isCheckEvent] <;>
    simpa using hlen

theorem countP_print_processTable (env : GEEnv) (s ds : String)
    (entry : String × List (Validator → Validator)) (t : String) :
    (processTable env s ds entry).countP (isPrintForTable t)
      = if entry.1 = t then 1 else 0 := by
  have hcomp : isPrintForTable t ∘ Event.check (suiteNameOf entry.1)
      = fun _ => false := by
    funext inv
    rfl
  by_cases ht : entry.1 = t
  · subst ht
    by_cases hex : env.suiteExists (suiteNameOf entry.1) <;>
      simp [processTable, hex, List.countP_append, List.countP_cons,
        List.countP_map, hcomp, List.countP_false, isPrintForTable]
  · by_cases hex : env.suiteExists (suiteNameOf entry.1) <;>
      simp [processTable, hex, ht, List.countP_append, List.countP_cons,
        List.countP_map, hcomp, List.countP_false, isPrintForTable]

/-- The table names of the grouped configuration, in insertion
order (the iteration order of the per-table loop). -/
def tableKeys (g : Grouped) : List String :=
  g.map Prod.fst

theorem tableKeys_dappend (g : Grouped) (k : String)
    (f : Validator → Validator) :
    tableKeys (dappend g k f)
      = if k ∈ tableKeys g then tableKeys g else tableKeys g ++ [k] := by
  induction g with
  | nil => simp [dappend, tableKeys]
  | cons p rest ih =>
    obtain ⟨k1, fs⟩ := p
    by_cases hp : k1 = k
    · simp [dappend, if_pos hp, tableKeys, hp]
    · have hne : ¬ k = k1 := fun hk => hp hk.symm
      simp only [tableKeys] at ih
      simp only [dappend, if_neg hp, tableKeys, List.map_cons]
      rw [ih]
      by_cases hmem : k ∈ List.map Prod.fst rest
      · rw [if_pos hmem, if_pos (List.mem_cons_of_mem _ hmem)]
      · rw [if_neg hmem, if_neg (by simp [List.mem_cons, hne, hmem])]
        simp

theorem sumLens_dappend (g : Grouped) (k : String)
    (f : Validator → Validator) :
    ((dappend g k f).map (fun e => e.2.length)).sum
      = (g.map (fun e => e.2.length)).sum + 1 := by
  induction g with
  | nil => simp [dappend]
  | cons p rest ih =>
    obtain ⟨k1, fs⟩ := p
    by_cases hp : k1 = k
    · simp [dappend, if_pos hp]
      omega
    · simp [dappend, if_neg hp, ih]
      omega

theorem sumLens_foldl_dappend (df : List Row) (g : Grouped) :
    ((df.foldl
        (fun grouped row =>
          dappend grouped row.table_name
            (build_expectation_function row.expectation_type
              row.column_name (paramsOf row)))
        g).map (fun e => e.2.length)).sum
      = (g.map (fun e => e.2.length)).sum + df.length := by
  induction df generalizing g with
  | nil => rfl
  | cons r rest ih =>
    simp only [List.foldl_cons, List.length_cons]
    rw [ih, sumLens_dappend]
    omega

theorem sumLens_groupRules (df : List Row) :
    ((groupRules df).map (fun e => e.2.length)).sum = df.length := by
  unfold groupRules
  rw [sumLens_foldl_dappend]
  simp

theorem tableKeys_foldl_dappend_nodup (df : List Row) (g : Grouped)
    (hg : (tableKeys g).Nodup) :
    (tableKeys
      (df.foldl
        (fun grouped row =>
          dappend grouped row.table_name
            (build_expectation_function row.expectation_type
              row.column_name (paramsOf row)))
        g)).Nodup := by
  induction df generalizing g with
  | nil => exact hg
  | cons r rest ih =>
    simp only [List.foldl_cons]
    apply ih
    rw [tableKeys_dappend]
    by_cases hmem : r.table_name ∈ tableKeys g
    · rw [if_pos hmem]
      exact hg
    · rw [if_neg hmem]
      simp [List.nodup_append, hg, hmem]

theorem tableKeys_groupRules_nodup (df : List Row) :
    (tableKeys (groupRules df)).Nodup :=
  tableKeys_foldl_dappend_nodup df [] List.nodup_nil

theorem sum_if_eq_count (l : List String) (t : String) :
    (l.map (fun s => if s = t then 1 else 0)).sum = l.count t := by
  induction l with
  | nil => rfl
  | cons s rest ih =>
    by_cases h : s = t
    · simp [h, ih, List.count_cons]
      omega
    · simp [h, ih, List.count_cons]

theorem monitorTrace_countP_validate (cfg : Grouped) (env : GEEnv)
    (ev : EnvVars) :
    (monitorTrace cfg env ev).countP isValidateEvent = cfg.length := by
  unfold monitorTrace
  rw [List.countP_append, countP_flatMap]
  have hsetup : (setupEvents ev).countP isValidateEvent = 0 := rfl
  rw [hsetup]
  have hmap : cfg.map
      (fun entry =>
        (processTable env ev.schema_name "snowflake_ds" entry).countP
          isValidateEvent)
      = cfg.map (fun _ => 1) :=
    List.map_congr_left
      (fun entry _ => countP_validate_processTable env ev.schema_name
        "snowflake_ds" entry)
  rw [hmap, sum_map_one]
  omega

theorem monitorTrace_countP_check (df : List Row) (env : GEEnv)
    (ev : EnvVars) :
    (monitorTrace (groupRules df) env ev).countP isCheckEvent
      = df.length := by
  unfold monitorTrace
  rw [List.countP_append, countP_flatMap]
  have hsetup : (setupEvents ev).countP isCheckEvent = 0 := rfl
  rw [hsetup]
  have hmap : (groupRules df).map
      (fun entry =>
        (processTable env ev.schema_name "snowflake_ds" entry).countP
          isCheckEvent)
      = (groupRules df).map (fun entry => entry.2.length) :=
    List.map_congr_left
      (fun entry hmem => countP_check_processTable env ev.schema_name
        "snowflake_ds" entry (groupRules_appliesOneCheck df entry hmem))
  rw [hmap, sumLens_groupRules]
  omega

theorem monitorTrace_countP_print (df : List Row) (env : GEEnv)
    (ev : EnvVars) (t : String) (h : t ∈ tableKeys (groupRules df)) :
    (monitorTrace (groupRules df) env ev).countP (isPrintForTable t)
      = 1 := by
  unfold monitorTrace
  rw [List.countP_append, countP_flatMap]
  have hsetup : (setupEvents ev).countP (isPrintForTable t) = 0 := rfl
  rw [hsetup]
  have hmap : (groupRules df).map
      (fun entry =>
        (processTable env ev.schema_name "snowflake_ds" entry).countP
          (isPrintForTable t))
      = (groupRules df).map (fun entry => if entry.1 = t then 1 else 0) :=
    List.map_congr_left
      (fun entry _ => countP_print_processTable env ev.schema_name
        "snowflake_ds" entry t)
  rw [hmap]
  have hcomp : (groupRules df).map (fun entry => if entry.1 = t then 1 else 0)
      = (tableKeys (groupRules df)).map (fun s => if s = t then 1 else 0) := by
    unfold tableKeys
    rw [List.map_map]
    rfl
  rw [hcomp, sum_if_eq_count]
  rw [List.count_eq_one_of_mem (tableKeys_groupRules_nodup df) h]

/-- Claim C6. A run is a single linear pass, for every environment —
including environments where every suite fetch and every validation
fails, so no operation is retried after a failure: over the whole
trace, the number of `validate` calls equals the number of
configuration tables, the number of registered checks equals the
number of configuration rows (each translated rule is applied to its
validator exactly once), and each table's pass/fail line is printed
exactly once. -/
theorem monitor_single_linear_pass (df : List Row) (env : GEEnv)
    (ev : EnvVars) :
    ((monitorTrace (groupRules df) env ev).countP isValidateEvent
        = (groupRules df).length)
    ∧ ((monitorTrace (groupRules df) env ev).countP isCheckEvent
        = df.length)
    ∧ ∀ t, t ∈ tableKeys (groupRules df) →
        (monitorTrace (groupRules df) env ev).countP (isPrintForTable t)
          = 1 :=
  ⟨monitorTrace_countP_validate (groupRules df) env ev,
    monitorTrace_countP_check df env ev,
    fun t ht => monitorTrace_countP_print df env ev t ht⟩

/-- Witness for claim C6 at the hardcoded fallback configuration,
in an environment where every suite fetch and every validation
fails. -/
theorem monitor_single_linear_pass_witness :
    ((monitorTrace (groupRules fallback_df)
          { suiteExists := fun _ => false, validateSuccess := fun _ => false }
          { user := "u", password := "p", account := "a", database := "d"
          , schema_name := "PUBLIC", warehouse := "w" }).countP isValidateEvent
        = (groupRules fallback_df).length)
    ∧ ((monitorTrace (groupRules fallback_df)
          { suiteExists := fun _ => false, validateSuccess := fun _ => false }
          { user := "u", password := "p", account := "a", database := "d"
          , schema_name := "PUBLIC", warehouse := "w" }).countP isCheckEvent
        = fallback_df.length)
    ∧ (monitorTrace (groupRules fallback_df)
          { suiteExists := fun _ => false, validateSuccess := fun _ => false }
          { user := "u", password := "p", account := "a", database := "d"
          , schema_name := "PUBLIC", warehouse := "w" }).countP
        (isPrintForTable "TEST_DATES") = 1 :=
  ⟨(monitor_single_linear_pass fallback_df
      { suiteExists := fun _ => false, validateSuccess := fun _ => false }
      { user := "u", password := "p", account := "a", database := "d"
      , schema_name := "PUBLIC", warehouse := "w" }).1,
    (monitor_single_linear_pass fallback_df
      { suiteExists := fun _ => false, validateSuccess := fun _ => false }
      { user := "u", password := "p", account := "a", database := "d"
      , schema_name := "PUBLIC", warehouse := "w" }).2.1,
    (monitor_single_linear_pass fallback_df
      { suiteExists := fun _ => false, validateSuccess := fun _ => false }
      { user := "u", password := "p", account := "a", database := "d"
      , schema_name := "PUBLIC", warehouse := "w" }).2.2 "TEST_DATES"
      (by decide)⟩

/-! ### Suite-per-table claims -/

theorem string_append_data (a b : String) :
    (a ++ b).data = a.data ++ b.data := by
  cases a
  cases b
  rfl

theorem string_data_inj {a b : String} (h : a.data = b.data) : a = b := by
  cases a
  cases b
  exact congrArg String.mk h

/-- Counterexample to claim C7 as stated: distinct table names do not
always get distinct suites, because the suite name is derived from
the lowercased table name, which identifies tables differing only in
letter case — `"A"` and `"a"` are distinct tables yet share the suite
`"a_suite"`. -/
theorem distinct_tables_distinct_suites_refuted :
    ¬ ∀ t1 t2 : String, t1 ≠ t2 → suiteNameOf t1 ≠ suiteNameOf t2 := by
  intro h
  exact h "A" "a" (by decide) (by decide)

/-- Claim C7 (amended). The orchestrator derives each table's suite
name from that table's name alone (lowercased name plus the fixed
suffix `_suite`), so tables whose lowercased names differ get
distinct suites — tables differing only in letter case share one —
and every check registered through a table's validator is recorded
under that table's own suite name and no other. -/
theorem suite_per_table_amended :
    (∀ t1 t2 : String, strLower t1 ≠ strLower t2 →
        suiteNameOf t1 ≠ suiteNameOf t2)
    ∧ ∀ (env : GEEnv) (s ds : String)
        (entry : String × List (Validator → Validator))
        (sn : String) (inv : CheckInvocation),
        Event.check sn inv ∈ processTable env s ds entry →
        sn = suiteNameOf entry.1 := by
  constructor
  · intro t1 t2 hne heq
    apply hne
    have hdata := congrArg String.data heq
    simp only [suiteNameOf] at hdata
    rw [string_append_data, string_append_data] at hdata
    exact string_data_inj (List.append_cancel_right hdata)
  · intro env s ds entry sn inv h
    by_cases hex : env.suiteExists (suiteNameOf entry.1) = true
    · simp [processTable, hex, List.mem_append, List.mem_map,
        List.mem_cons] at h
      exact h.2.symm
    · simp [processTable, hex, List.mem_append, List.mem_map,
        List.mem_cons] at h
      exact h.2.symm

/-- Witness for the amended claim C7: two concrete tables with
different lowercased names get distinct suites, and a concrete check
registered while processing table `TEST_DATES` carries that table's
suite name. -/
theorem suite_per_table_amended_witness :
    suiteNameOf "FOO" ≠ suiteNameOf "BAR"
    ∧ suiteNameOf "TEST_DATES"
        = suiteNameOf
            (("TEST_DATES",
              [build_expectation_function
                "expect_column_values_to_not_be_null" "ID" []]) :
              String × List (Validator → Validator)).1 :=
  ⟨suite_per_table_amended.1 "FOO" "BAR" (by decide),
    suite_per_table_amended.2
      { suiteExists := fun _ => true, validateSuccess := fun _ => true }
      "PUBLIC" "snowflake_ds"
      ("TEST_DATES",
        [build_expectation_function "expect_column_values_to_not_be_null"
          "ID" []])
      (suiteNameOf "TEST_DATES")
      { method := "expect_column_values_to_not_be_null"
      , positional := [JVal.str "ID"]
      , kwargs := [("result_format", JVal.str "COMPLETE")] }
      (by decide)⟩

end GEUtility
